import Mathlib

/-!
Verification of the CodeStream repository excerpt: the `UserCollection`
lookup methods (users.ts), the lazy collection cache they rely on, the
Trello provider client (trello.ts), and the `PostMessageInterop` bridge
(DotNetBrowserService.cs).  Each TypeScript/C# construct is shallowly
embedded as an executable Lean definition, and the spec's claims are
proved or refuted against those definitions.
-/

namespace CodeStream

/-- Model of JavaScript `String.prototype.toLocaleUpperCase` as used by the
collection lookups: character-wise upper-casing (the invariant-locale
reading of the locale-dependent original). -/
def toLocaleUpperCase (s : String) : String := String.mk (s.data.map Char.toUpper)

/-- Raw remote user record (`CSUser`), restricted to the fields the shown
code projects: `email` and `username`. -/
structure CSUser where
  email : String
  username : String
deriving DecidableEq, Repr

/-- Entity wrapper `User extends CodeStreamItem<CSUser>`: wraps one raw
record (`entity`) and exposes derived accessors. -/
structure User where
  entity : CSUser
deriving DecidableEq, Repr

/-- Accessor `get email() { return this.entity.email; }`. -/
def User.email (u : User) : String := u.entity.email

/-- Accessor `get name() { return this.entity.username; }`. -/
def User.name (u : User) : String := u.entity.username

/-- The options object `{ ignoreCase?: boolean }`.  The field is optional:
`none` models a missing `ignoreCase` property (JavaScript `undefined`). -/
structure LookupOptions where
  ignoreCase : Option Bool
deriving DecidableEq, Repr

/-- The default argument `options = { ignoreCase: true }`, which applies
only when the options argument is omitted entirely at the call site. -/
def defaultLookupOptions : LookupOptions := ⟨some true⟩

/-- An explicitly passed empty options object `{}`: its `ignoreCase`
property is absent (`undefined`). -/
def emptyLookupOptions : LookupOptions := ⟨none⟩

/-- JavaScript truthiness of `options.ignoreCase`: `undefined` and `false`
are falsy, `true` is truthy. -/
def truthy : Option Bool → Bool
  | some true => true
  | _ => false

/-- `UserCollection.getByEmail(email, options)` applied to the cached item
sequence: upper-cases the query when `options.ignoreCase` is truthy, then
`Iterables.find` (first match) comparing the (conditionally upper-cased)
projected email. -/
def getByEmail (users : List User) (email : String) (options : LookupOptions) : Option User :=
  let email := if truthy options.ignoreCase then toLocaleUpperCase email else email
  users.find? fun u =>
    (if truthy options.ignoreCase then toLocaleUpperCase u.email else u.email) == email

/-- `UserCollection.getByEmails(emails, options)` applied to the cached
item sequence: upper-cases the candidate set when `options.ignoreCase` is
truthy, then `Iterables.filter` keeping users whose (conditionally
upper-cased) email is contained (`Array.includes`) in the candidates. -/
def getByEmails (users : List User) (emails : List String) (options : LookupOptions) :
    List User :=
  let emails := if truthy options.ignoreCase then emails.map toLocaleUpperCase else emails
  users.filter fun u =>
    emails.contains (if truthy options.ignoreCase then toLocaleUpperCase u.email else u.email)

/-- `UserCollection.getByName(name, options)` applied to the cached item
sequence: like `getByEmail` but over the projected `name` field. -/
def getByName (users : List User) (name : String) (options : LookupOptions) : Option User :=
  let name := if truthy options.ignoreCase then toLocaleUpperCase name else name
  users.find? fun u =>
    (if truthy options.ignoreCase then toLocaleUpperCase u.name else u.name) == name

/-- A Trello list record as returned by `GET /boards/.../lists`, restricted
to the fields the provider code inspects. -/
structure TrelloList where
  id : String
  name : String
  closed : Bool
deriving DecidableEq, Repr

/-- A Trello board record as returned by `GET /members/.../boards`,
restricted to the fields the provider code inspects. -/
structure TrelloBoard where
  id : String
  name : String
  idOrganization : String
deriving DecidableEq, Repr

/-- The request to `TrelloProvider.boards`: an optional organization-id
filter (`none` models an omitted/`undefined` property). -/
structure TrelloFetchBoardsRequest where
  organizationId : Option String
deriving DecidableEq, Repr

/-- JavaScript truthiness of an optional string property: `undefined` and
the empty string are falsy. -/
def truthyStr : Option String → Bool
  | none => false
  | some s => s != ""

namespace TrelloProvider

/-- The response-shaping part of `TrelloProvider.boards`, as a function of
the body the remote endpoint returned: when `request.organizationId` is
truthy the body is filtered by `b.idOrganization === request.organizationId`,
otherwise the body is passed through unfiltered. -/
def boards (request : TrelloFetchBoardsRequest) (body : List TrelloBoard) : List TrelloBoard :=
  if truthyStr request.organizationId then
    body.filter fun b => some b.idOrganization == request.organizationId
  else body

/-- The response-shaping part of `TrelloProvider.lists`, as a function of
the body the remote endpoint returned: `response.body.filter(l => !l.closed)`. -/
def lists (body : List TrelloList) : List TrelloList :=
  body.filter fun l => !l.closed

/-- The kinds of HTTP calls `trello.ts` issues, one constructor per
endpoint template. `whoAmI` is the `GET /token/...` call of `getMemberId`. -/
inductive TrelloCall where
  | whoAmI
  | getBoards
  | getLists
  | postCard
deriving DecidableEq, Repr

/-- The mutable per-instance state of a `TrelloProvider`:
`_trelloUserId` (initially `undefined`) and the access token held in
`_providerInfo` (never written by the shown code). -/
structure TrelloState where
  trelloUserId : Option String
  accessToken : String
deriving DecidableEq, Repr

/-- The body of the `GET /token/...` ("who am I") response, restricted to
the one field the code reads. -/
structure WhoAmIResponse where
  idMember : String
deriving DecidableEq, Repr

/-- `TrelloProvider.getMemberId()`: issues the who-am-I call and returns
the response's `idMember` field.  The second component is the list of HTTP
calls the operation issued. -/
def getMemberId (resp : WhoAmIResponse) : String × List TrelloCall :=
  (resp.idMember, [TrelloCall.whoAmI])

/-- `TrelloProvider.onConnected()`: stores the result of `getMemberId`
into `_trelloUserId`.  Returns the new state and the HTTP calls issued. -/
def onConnected (st : TrelloState) (resp : WhoAmIResponse) : TrelloState × List TrelloCall :=
  ({ st with trelloUserId := some (getMemberId resp).1 }, (getMemberId resp).2)

/-- `TrelloProvider.boards(request)` as a state transformer: issues one
boards call, shapes the response body, and leaves the state untouched. -/
def boardsOp (st : TrelloState) (request : TrelloFetchBoardsRequest)
    (body : List TrelloBoard) : TrelloState × List TrelloBoard × List TrelloCall :=
  (st, boards request body, [TrelloCall.getBoards])

/-- `TrelloProvider.lists(request)` as a state transformer: issues one
lists call, filters out closed lists, and leaves the state untouched. -/
def listsOp (st : TrelloState) (body : List TrelloList) :
    TrelloState × List TrelloList × List TrelloCall :=
  (st, lists body, [TrelloCall.getLists])

/-- `TrelloProvider.createCard(request)` as a state transformer: issues
one card-creation call, returns the response body as-is, and leaves the
state untouched.  The response body is opaque here. -/
def createCardOp {β : Type} (st : TrelloState) (respBody : β) :
    TrelloState × β × List TrelloCall :=
  (st, respBody, [TrelloCall.postCard])

end TrelloProvider

/-- The event-args object `new WindowEventArgs(message)` that
`PostMessageInterop.Handle` constructs for the registered handler: it
carries only the message. -/
structure WindowEventArgs where
  message : String
deriving DecidableEq, Repr

namespace PostMessageInterop

/-- `PostMessageInterop.Handle(message, origin)`: when no handler is
registered (`MessageHandler == null`) it returns without effect (`none`);
otherwise it invokes the registered handler with `WindowEventArgs(message)`.
The result records which handler was dispatched to and with what
arguments; `H` is the (opaque) handler type. -/
def Handle {H : Type} (messageHandler : Option H) (message : String) (origin : String) :
    Option (H × WindowEventArgs) :=
  match messageHandler with
  | none => none
  | some h => some (h, ⟨message⟩)

end PostMessageInterop

namespace Collection

/-- Modelled from the spec: the base class `CodeStreamCollection` (its
`items()` population logic) is imported by users.ts but its source is not
among the provided files.  Per the spec, a collection owns an optional
cached sequence, populated by at most one in-flight fetch: `cache` is the
optional cached item sequence, `pending` records an in-flight fetch, and
`fetchCount` counts the underlying fetch calls issued so far. -/
structure CollectionState (α : Type) where
  cache : Option (List α)
  pending : Bool
  fetchCount : Nat
deriving DecidableEq, Repr

/-- Modelled from the spec: the collection's cache is empty at
construction, with no fetch in flight and no fetch issued. -/
def initialCollection {α : Type} : CollectionState α := ⟨none, false, 0⟩

/-- Modelled from the spec: the observable events of a collection's
population protocol.  `lookupStart` is a lookup (such as `getByEmail`)
beginning and ensuring the cache is populated; `fetchResolve` is the
in-flight fetch completing with a mapped item sequence; `invalidate` is
the explicit invalidation signal. -/
inductive CollectionEvent (α : Type) where
  | lookupStart
  | fetchResolve (items : List α)
  | invalidate
deriving DecidableEq, Repr

/-- Modelled from the spec: the single-flight population protocol of
`items()`.  A starting lookup finds the cache populated (no fetch), or a
fetch already in flight (it awaits that same fetch, issuing none), or
neither (it issues the one underlying fetch).  A resolving fetch
populates the cache; invalidation clears it. -/
def step {α : Type} (s : CollectionState α) : CollectionEvent α → CollectionState α
  | CollectionEvent.lookupStart =>
    match s.cache, s.pending with
    | some _, _ => s
    | none, true => s
    | none, false => { s with pending := true, fetchCount := s.fetchCount + 1 }
  | CollectionEvent.fetchResolve items =>
    if s.pending then { s with cache := some items, pending := false } else s
  | CollectionEvent.invalidate => { s with cache := none, pending := false }

/-- Modelled from the spec: a collection run is the fold of the protocol
steps over an event trace, starting from the freshly constructed state. -/
def runCollection {α : Type} (trace : List (CollectionEvent α)) : CollectionState α :=
  trace.foldl step initialCollection

/-- Modelled from the spec: the cache field of a collection, holding the
one optional cached item sequence (result-level view used for the failure
semantics of `items()`). -/
structure CollectionCache (α : Type) where
  cache : Option (List α)
deriving DecidableEq, Repr

/-- Modelled from the spec: the result-level semantics of `items()` for
one call, given the outcome the underlying `fetch()` would produce.  With
a populated cache the fetch is skipped; otherwise a successful fetch
populates the cache and is returned, and a failed fetch propagates its
error unchanged, leaving the cache unset. -/
def items {α ε : Type} (fetchOutcome : Except ε (List α)) (s : CollectionCache α) :
    CollectionCache α × Except ε (List α) :=
  match s.cache with
  | some xs => (s, Except.ok xs)
  | none =>
    match fetchOutcome with
    | Except.ok xs => (⟨some xs⟩, Except.ok xs)
    | Except.error e => (s, Except.error e)

end Collection

/-- Claim C3: for every body the remote board-lists endpoint returns,
`lists` contains no entity whose closed flag is true — closed lists are
removed by the local post-filter. -/
theorem lists_excludes_closed (body : List TrelloList) (l : TrelloList)
    (h : l ∈ TrelloProvider.lists body) : l.closed = false := by
  have hp := (List.mem_filter.mp h).2
  simpa using hp

/-- Witness for C3 at a concrete body holding one open and one closed list. -/
theorem lists_excludes_closed_witness :
    TrelloList.closed ⟨"l1", "Doing", false⟩ = false :=
  lists_excludes_closed [⟨"l1", "Doing", false⟩, ⟨"l2", "Done", true⟩]
    ⟨"l1", "Doing", false⟩ (by decide)

/-- Counterexample to claim C4 as stated: with `organizationId` present
but equal to the empty string, `boards` returns the fetched boards
unfiltered (the JavaScript truthiness test fails), so it returns a board
whose `idOrganization` does not equal the supplied filter value. -/
theorem boards_unfiltered_on_empty_orgid :
    TrelloProvider.boards ⟨some ""⟩ [⟨"b1", "Board", "org1"⟩] = [⟨"b1", "Board", "org1"⟩] ∧
    TrelloBoard.idOrganization ⟨"b1", "Board", "org1"⟩ ≠ "" := by
  decide

/-- Claim C4 (amended to non-empty filter values): for a non-empty
organization id `X`, `boards` returns exactly the fetched boards whose
`idOrganization` equals `X`, and with the filter omitted it returns the
fetched boards unfiltered. -/
theorem boards_filter_spec (X : String) (body : List TrelloBoard) (hX : X ≠ "") :
    TrelloProvider.boards ⟨some X⟩ body = body.filter (fun b => b.idOrganization == X) ∧
    (∀ b, b ∈ TrelloProvider.boards ⟨some X⟩ body ↔ b ∈ body ∧ b.idOrganization = X) ∧
    TrelloProvider.boards ⟨none⟩ body = body := by
  have ht : truthyStr (some X) = true := by
    simpa [truthyStr] using hX
  have hfil : TrelloProvider.boards ⟨some X⟩ body =
      body.filter (fun b => b.idOrganization == X) := by
    unfold TrelloProvider.boards
    rw [ht]
    simp only [if_true]
    apply List.filter_congr
    intro b _
    by_cases hb : b.idOrganization = X
    · simp [hb]
    · simp [beq_eq_false_iff_ne, hb]
  refine ⟨hfil, ?_, rfl⟩
  intro b
  rw [hfil]
  simp [List.mem_filter]

/-- Witness for C4's amended theorem at a concrete filter and body. -/
theorem boards_filter_spec_witness :
    TrelloProvider.boards ⟨none⟩ [⟨"b1", "Board", "org1"⟩] = [⟨"b1", "Board", "org1"⟩] :=
  (boards_filter_spec "org1" [⟨"b1", "Board", "org1"⟩] (by decide)).2.2

/-- Counterexample to claim C8 as stated: the connection-time who-am-I
call does not obtain and cache the authentication token — it caches the
response's member id, which differs from the instance's access token
(the token is configuration the provider already holds). -/
theorem trello_caches_member_id_not_token :
    (TrelloProvider.onConnected ⟨none, "secret-token"⟩ ⟨"member-42"⟩).1.trelloUserId
        = some "member-42" ∧
    (TrelloProvider.onConnected ⟨none, "secret-token"⟩ ⟨"member-42"⟩).1.trelloUserId
        ≠ some "secret-token" ∧
    (TrelloProvider.onConnected ⟨none, "secret-token"⟩ ⟨"member-42"⟩).1.accessToken
        = "secret-token" := by
  decide

/-- Claim C8 (amended: the cached value is the Trello member id, not the
authentication token): connecting issues the who-am-I call exactly once
and caches the returned member id, and none of `boards`, `lists`,
`createCard` re-issues that call or modifies the cached field. -/
theorem trello_whoami_once_cached (st : TrelloProvider.TrelloState)
    (resp : TrelloProvider.WhoAmIResponse) (request : TrelloFetchBoardsRequest)
    (bbody : List TrelloBoard) (lbody : List TrelloList) {β : Type} (cbody : β) :
    (TrelloProvider.onConnected st resp).2 = [TrelloProvider.TrelloCall.whoAmI] ∧
    (TrelloProvider.onConnected st resp).1.trelloUserId = some resp.idMember ∧
    (TrelloProvider.boardsOp (TrelloProvider.onConnected st resp).1 request bbody).1 =
      (TrelloProvider.onConnected st resp).1 ∧
    TrelloProvider.TrelloCall.whoAmI ∉
      (TrelloProvider.boardsOp (TrelloProvider.onConnected st resp).1 request bbody).2.2 ∧
    (TrelloProvider.listsOp (TrelloProvider.onConnected st resp).1 lbody).1 =
      (TrelloProvider.onConnected st resp).1 ∧
    TrelloProvider.TrelloCall.whoAmI ∉
      (TrelloProvider.listsOp (TrelloProvider.onConnected st resp).1 lbody).2.2 ∧
    (TrelloProvider.createCardOp (TrelloProvider.onConnected st resp).1 cbody).1 =
      (TrelloProvider.onConnected st resp).1 ∧
    TrelloProvider.TrelloCall.whoAmI ∉
      (TrelloProvider.createCardOp (TrelloProvider.onConnected st resp).1 cbody).2.2 := by
  refine ⟨rfl, rfl, rfl, ?_, rfl, ?_, rfl, ?_⟩ <;>
    simp [TrelloProvider.boardsOp, TrelloProvider.listsOp, TrelloProvider.createCardOp]

/-- Claim C10: `Handle` never uses its origin argument — any two origins
produce the identical dispatch, the registered handler receives only the
message, and with no registered handler the call has no effect. -/
theorem handle_ignores_origin {H : Type} (mh : Option H) (m o1 o2 : String) :
    PostMessageInterop.Handle mh m o1 = PostMessageInterop.Handle mh m o2 ∧
    (∀ h, mh = some h → PostMessageInterop.Handle mh m o1 = some (h, ⟨m⟩)) ∧
    PostMessageInterop.Handle (none : Option H) m o1 = none := by
  refine ⟨?_, ?_, rfl⟩
  · cases mh <;> rfl
  · intro h hh
    subst hh
    rfl

/-- Claim C5: with `ignoreCase: true`, a field lookup returns `some u`
exactly when `u` is the first cached entity whose projected field equals
the query up to case variation (same locale upper-casing), and returns
an absent value exactly when no cached entity matches up to case; stated
for `getByEmail` and `getByName`. -/
theorem find_by_field_ignore_case (users : List User) (q : String) (u : User) :
    (getByEmail users q ⟨some true⟩ = some u ↔
      toLocaleUpperCase u.email = toLocaleUpperCase q ∧
      ∃ pre post, users = pre ++ u :: post ∧
        ∀ v ∈ pre, toLocaleUpperCase v.email ≠ toLocaleUpperCase q) ∧
    (getByEmail users q ⟨some true⟩ = none ↔
      ∀ v ∈ users, toLocaleUpperCase v.email ≠ toLocaleUpperCase q) ∧
    (getByName users q ⟨some true⟩ = some u ↔
      toLocaleUpperCase u.name = toLocaleUpperCase q ∧
      ∃ pre post, users = pre ++ u :: post ∧
        ∀ v ∈ pre, toLocaleUpperCase v.name ≠ toLocaleUpperCase q) := by
  unfold getByEmail getByName
  simp [truthy, List.find?_eq_some, List.find?_eq_none]

/-- Claim C6: with `ignoreCase: false`, `getByEmail` matches an entity
only when the query equals the entity's projected email exactly,
including character case. -/
theorem getByEmail_case_sensitive (users : List User) (q : String) (u : User)
    (h : getByEmail users q ⟨some false⟩ = some u) : u.email = q := by
  unfold getByEmail at h
  simp only [truthy, Bool.false_eq_true, if_false] at h
  have hp := List.find?_some h
  simpa using hp

/-- Witness for C6: a case-sensitive lookup at a concrete collection. -/
theorem getByEmail_case_sensitive_witness :
    User.email ⟨⟨"A@B.com", "ann"⟩⟩ = "A@B.com" :=
  getByEmail_case_sensitive [⟨⟨"A@B.com", "ann"⟩⟩] "A@B.com" ⟨⟨"A@B.com", "ann"⟩⟩
    (by decide)

/-- Claim C7: `getByEmails` returns exactly the cached entities whose
projected email is a member of the candidate set under the chosen
case-folding rule, and the result is a sublist of the cached sequence
(same relative order). -/
theorem getByEmails_membership_and_order (users : List User) (emails : List String)
    (ic : Bool) :
    (∀ u, u ∈ getByEmails users emails ⟨some ic⟩ ↔
      u ∈ users ∧ ∃ e ∈ emails,
        (if ic then toLocaleUpperCase e else e) =
          (if ic then toLocaleUpperCase u.email else u.email)) ∧
    (getByEmails users emails ⟨some ic⟩).Sublist users := by
  constructor
  · intro u
    cases ic <;> simp [getByEmails, truthy, List.mem_filter]
  · cases ic <;> exact List.filter_sublist _

/-- Claim C9: omitting the options argument applies the
`{ ignoreCase: true }` default, so the lookup is case-insensitive (the
query, or a candidate email, may vary in case without changing the
result), while passing an explicit `{}` leaves `ignoreCase` undefined,
hence falsy, so the lookup demands exact, case-sensitive equality; for
`getByEmail`, `getByName` and `getByEmails`. -/
theorem lookup_options_defaulting (users : List User) (q qv : String)
    (emails : List String) (hq : toLocaleUpperCase qv = toLocaleUpperCase q) :
    (getByEmail users qv defaultLookupOptions = getByEmail users q defaultLookupOptions ∧
     getByName users qv defaultLookupOptions = getByName users q defaultLookupOptions ∧
     getByEmails users (qv :: emails) defaultLookupOptions =
       getByEmails users (q :: emails) defaultLookupOptions) ∧
    ((∀ u, getByEmail users q emptyLookupOptions = some u → u.email = q) ∧
     (∀ u, getByName users q emptyLookupOptions = some u → u.name = q) ∧
     (∀ u, u ∈ getByEmails users emails emptyLookupOptions → u.email ∈ emails)) := by
  constructor
  · refine ⟨?_, ?_, ?_⟩ <;> simp [getByEmail, getByName, getByEmails,
      defaultLookupOptions, truthy, hq]
  · refine ⟨?_, ?_, ?_⟩
    · intro u h
      simp only [getByEmail, emptyLookupOptions, truthy, if_false] at h
      simpa using List.find?_some h
    · intro u h
      simp only [getByName, emptyLookupOptions, truthy, if_false] at h
      simpa using List.find?_some h
    · intro u h
      simp only [getByEmails, emptyLookupOptions, truthy, if_false] at h
      have := (List.mem_filter.mp h).2
      simpa using this

/-- Witness for C9: the default (omitted options) lookup is insensitive
to the case of the query at a concrete collection. -/
theorem lookup_options_defaulting_witness :
    getByEmail [⟨⟨"A@B.com", "ann"⟩⟩] "a@b.COM" defaultLookupOptions =
      getByEmail [⟨⟨"A@B.com", "ann"⟩⟩] "A@B.com" defaultLookupOptions :=
  (lookup_options_defaulting [⟨⟨"A@B.com", "ann"⟩⟩] "A@B.com" "a@b.COM" []
    (by decide)).1.1

/-- Helper for C1: once a collection has issued its one fetch (count one,
with the fetch pending or the cache populated), any further
invalidation-free events keep the count at one and keep the collection
busy or populated. -/
theorem collection_keeps_one_fetch {α : Type} (trace : List (Collection.CollectionEvent α))
    (s : Collection.CollectionState α)
    (hinv : Collection.CollectionEvent.invalidate ∉ trace)
    (hs : s.fetchCount = 1 ∧ (s.pending = true ∨ s.cache ≠ none)) :
    (trace.foldl Collection.step s).fetchCount = 1 ∧
      ((trace.foldl Collection.step s).pending = true ∨
        (trace.foldl Collection.step s).cache ≠ none) := by
  induction trace generalizing s with
  | nil => simpa using hs
  | cons e tl ih =>
    have hinv' : Collection.CollectionEvent.invalidate ∉ tl :=
      fun hmem => hinv (List.mem_cons_of_mem _ hmem)
    rw [List.foldl_cons]
    apply ih _ hinv'
    obtain ⟨hc, hbusy⟩ := hs
    obtain ⟨c, p, f⟩ := s
    cases e with
    | lookupStart =>
      cases c <;> cases p <;> simp_all [Collection.step]
    | fetchResolve xs =>
      cases c <;> cases p <;> simp_all [Collection.step]
    | invalidate =>
      exact absurd (List.mem_cons_self _ _) hinv

/-- Claim C1 (spec-modelled population protocol): along any event trace
with no invalidation in which some lookup starts, the collection issues
exactly one underlying fetch — a second lookup after the fetch resolved
reuses the cache, and overlapping lookups started before the fetch
resolves share the one in-flight fetch instead of issuing a duplicate. -/
theorem collection_single_flight {α : Type} (trace : List (Collection.CollectionEvent α))
    (hinv : Collection.CollectionEvent.invalidate ∉ trace)
    (hlk : Collection.CollectionEvent.lookupStart ∈ trace) :
    (Collection.runCollection trace).fetchCount = 1 := by
  unfold Collection.runCollection
  induction trace with
  | nil => simp at hlk
  | cons e tl ih =>
    have hinv' : Collection.CollectionEvent.invalidate ∉ tl :=
      fun hmem => hinv (List.mem_cons_of_mem _ hmem)
    cases e with
    | lookupStart =>
      rw [List.foldl_cons]
      exact (collection_keeps_one_fetch tl
        (Collection.step Collection.initialCollection Collection.CollectionEvent.lookupStart)
        hinv' ⟨rfl, Or.inl rfl⟩).1
    | fetchResolve xs =>
      have hlk' : Collection.CollectionEvent.lookupStart ∈ tl := by
        rcases List.mem_cons.mp hlk with heq | hmem
        · exact absurd heq (by simp)
        · exact hmem
      rw [List.foldl_cons]
      exact ih hinv' hlk'
    | invalidate =>
      exact absurd (List.mem_cons_self _ _) hinv

/-- Witness for C1: a trace with two overlapping lookups before the fetch
resolves and a third lookup after it — one fetch in total. -/
theorem collection_single_flight_witness :
    (Collection.runCollection [Collection.CollectionEvent.lookupStart,
      Collection.CollectionEvent.lookupStart,
      Collection.CollectionEvent.fetchResolve ([] : List Nat),
      Collection.CollectionEvent.lookupStart]).fetchCount = 1 :=
  collection_single_flight _ (by decide) (by decide)

/-- Claim C2 (spec-modelled result semantics of `items()`): with the
cache unset, a failing fetch makes `items` return that very error and
leaves the cache unset, so the next `items` call retries the fetch —
a succeeding retry returns its items and populates the cache. -/
theorem items_error_propagates {α ε : Type} (e : ε) (s : Collection.CollectionCache α)
    (h : s.cache = none) :
    (Collection.items (Except.error e) s).2 = Except.error e ∧
    (Collection.items (Except.error e) s).1.cache = none ∧
    ∀ xs : List α,
      (Collection.items ((Except.ok xs : Except ε (List α)))
          (Collection.items (Except.error e) s).1).2 = Except.ok xs ∧
      (Collection.items ((Except.ok xs : Except ε (List α)))
          (Collection.items (Except.error e) s).1).1.cache = some xs := by
  obtain ⟨c⟩ := s
  cases c with
  | none => exact ⟨rfl, rfl, fun xs => ⟨rfl, rfl⟩⟩
  | some ys => simp at h

/-- Witness for C2: a failed fetch at a concrete empty collection
propagates the error and leaves the cache unset. -/
theorem items_error_propagates_witness :
    (Collection.items (Except.error "econnrefused")
        (⟨none⟩ : Collection.CollectionCache Nat)).2 = Except.error "econnrefused" :=
  (items_error_propagates "econnrefused" ⟨none⟩ rfl).1

end CodeStream
